import Mathlib

/-!
Verification of the file-compressor core (imageProcessor.js, pdfProcessor.js)
against its natural-language specification.

Shallow embedding conventions:
* Byte sequences (`Blob`) are abstracted to an opaque content identifier plus
  their length in bytes; `blob.size` in the source is `Blob.size` here.
* JavaScript numbers used as byte counts can hold the sentinel `Infinity`
  (the initial value of the `bestSize` trackers); these are modelled by
  `JSize`.
* Encoder quality levels: every quality constant and step in the source is an
  integer number of hundredths (0.92, 0.3, 0.98, 0.15, 0.08, 0.05, 0.75, 0.2,
  0.1, 0.85), so the search loops stay on the grid of hundredths forever.  We
  therefore represent a quality `q ∈ [0,1]` by the natural number `100·q`
  (e.g. `92` for `0.92`), idealising the source's binary floating point as
  exact arithmetic.  Size thresholds such as `targetSizeBytes * 0.85` are
  compared cross-multiplied (`85·t ≤ 100·size`), which is exactly the
  source's comparison under the same idealisation.
* `canvas.toBlob(format, quality)` is abstracted to an encoder capability: a
  function from the canvas dimensions and the quality (in hundredths) to the
  produced `Blob`.  `Math.sqrt` is abstracted to a capability `sq : ℚ → ℚ`;
  concrete instantiations only use it at arguments whose square root is exact.
* The dimension planners are embedded over exact rationals, with `Math.floor`
  as `Int.floor` and `Math.round` as `round` (both round half towards +∞ on
  the values that occur, as JavaScript does).
* The recursions/loops are written with a fuel argument for termination; the
  fuel is always at least the source's iteration cap plus one, so the
  source's own cap check fires strictly before the fuel can run out.
-/

namespace FileCompressor

/-- An encoded byte sequence, abstracted to an opaque content identifier plus
its length in bytes (the source only ever reads `blob.size` and passes the
bytes around whole). -/
structure Blob where
  content : ℕ
  size : ℕ
deriving DecidableEq

/-- A JavaScript number used as a byte count: either the sentinel `Infinity`
(the initial value of the `bestSize` trackers in `compressImage`,
`extractAndProcessPages` and `compressFullPDF`) or a finite count. -/
inductive JSize where
  | inf : JSize
  | fin : ℕ → JSize
deriving DecidableEq

/-- JS comparison `s > n` for a possibly-infinite size against a natural. -/
def JSize.gtN : JSize → ℕ → Bool
  | .inf, _ => true
  | .fin m, n => decide (n < m)

/-- JS comparison `s > orig * 0.5` (imageProcessor.js line 464),
cross-multiplied: `Infinity` always wins, a finite `m` wins iff
`2·m > orig`. -/
def JSize.gtHalfOf : JSize → ℕ → Bool
  | .inf, _ => true
  | .fin m, orig => decide (orig < 2 * m)

/-- JS comparison `a < b` between two possibly-infinite sizes. -/
def JSize.jlt : JSize → JSize → Bool
  | .inf, _ => false
  | .fin _, .inf => true
  | .fin a, .fin b => decide (a < b)

/-- JS comparison `n < s` (the source's `blob.size < bestSize`). -/
def JSize.nlt (n : ℕ) : JSize → Bool
  | .inf => true
  | .fin m => decide (n < m)

/-- JS comparison `s < n` (the source's `blob.size > bestSize`). -/
def JSize.ltN : JSize → ℕ → Bool
  | .inf, _ => false
  | .fin m, n => decide (m < n)

/-- JS truthiness of a number: `0` is falsy, every other value, including
`Infinity`, is truthy. -/
def JSize.truthy : JSize → Bool
  | .inf => true
  | .fin n => decide (n ≠ 0)

/-- The JS idiom `bestSize || blob.size` (imageProcessor.js line 305). -/
def JSize.orElse (s : JSize) (n : ℕ) : JSize :=
  if s.truthy then s else .fin n

/-- The JS idiom `bestQuality || quality` on qualities in hundredths
(0 is the only falsy number). -/
def qOr (a b : ℕ) : ℕ := if a = 0 then b else a

/-- The value `compressImage` resolves with:
`{ blob, size, quality, warning }` (imageProcessor.js line 231);
`quality` in hundredths. -/
structure CompressResult where
  blob : Option Blob
  size : JSize
  quality : ℕ
  warning : Bool
deriving DecidableEq

/-- The mutable state of `compressImage`'s `tryCompress` recursion
(imageProcessor.js lines 241-245); `quality`, `bestQuality` in hundredths. -/
structure CState where
  quality : ℕ
  iteration : ℕ
  best : Option Blob
  bestSize : JSize
  bestQuality : ℕ
deriving DecidableEq

/-- Initial search state: quality 0.92, iteration 0, no best result,
`bestSize = Infinity`, `bestQuality = 0.92`. -/
def initCState : CState := ⟨92, 0, none, .inf, 92⟩

/-- The result resolved when the iteration cap is reached
(imageProcessor.js lines 252-258). -/
def capResult (t : ℕ) (st : CState) : CompressResult :=
  match st.best with
  | some b => ⟨some b, st.bestSize, st.bestQuality, st.bestSize.gtN t⟩
  | none => ⟨none, .fin 0, 0, true⟩

/-- One progress notification of `tryCompress`:
`Math.min(100, Math.round((iteration / maxIterations) * 100))` with
`maxIterations = 25` (imageProcessor.js line 264). -/
def progressValue (iteration : ℕ) : ℤ :=
  min 100 (round ((iteration : ℚ) / 25 * 100))

/-- The `tryCompress` recursion of `compressImage` (imageProcessor.js lines
251-337), driven by an abstract encoder `enc` from quality (hundredths) to
the encoded blob (the canvas and format are fixed for one call).  Returns
the resolved result, the list of progress values emitted, and the number of
real encodes performed.  Constants, scaled by 100 where they are qualities:
target band `[0.85·t, t]` (`85·t ≤ 100·size ∧ size ≤ t`), natural-smallness
exit `size < 0.425·t` (`200·size < 85·t`), quality floor 30, ceiling 98,
cap 25 iterations, steps 15 / 8 down and 5 up. -/
def tryCompressRun (enc : ℕ → Blob) (t : ℕ) : ℕ → CState → CompressResult × List ℤ × ℕ
  | 0, st => (capResult t st, [], 0)
  | fuel + 1, st =>
    if 25 ≤ st.iteration then (capResult t st, [], 0)
    else
      let blob := enc st.quality
      let p := progressValue st.iteration
      if blob.size ≤ t ∧ 85 * t ≤ 100 * blob.size then
        (⟨some blob, .fin blob.size, st.quality, false⟩, [p], 1)
      else
        let st1 : CState :=
          if blob.size ≤ t ∧ JSize.nlt blob.size st.bestSize = true then
            { st with best := some blob, bestSize := .fin blob.size, bestQuality := st.quality }
          else st
        if st.iteration = 0 ∧ 200 * blob.size < 85 * t then
          (⟨some blob, .fin blob.size, st.quality, false⟩, [p], 1)
        else if t < blob.size then
          if st.quality ≤ 30 then
            (⟨st1.best.getD blob, st1.bestSize.orElse blob.size, qOr st1.bestQuality st.quality, true⟩,
              [p], 1)
          else
            let reduction : ℕ := if t * 2 < blob.size then 15 else 8
            let st2 : CState :=
              { st1 with quality := max 30 (st.quality - reduction), iteration := st.iteration + 1 }
            let r := tryCompressRun enc t fuel st2
            (r.1, p :: r.2.1, r.2.2 + 1)
        else if 100 * blob.size < 85 * t ∧ st.quality < 98 then
          let st2 : CState :=
            { st1 with quality := min 98 (st.quality + 5), iteration := st.iteration + 1 }
          let r := tryCompressRun enc t fuel st2
          (r.1, p :: r.2.1, r.2.2 + 1)
        else
          (⟨some blob, .fin blob.size, st.quality, decide (t < blob.size)⟩, [p], 1)

/-- `compressImage` (imageProcessor.js lines 233-339): runs the `tryCompress`
recursion from the initial state with target `targetSizeKB * 1024` bytes. -/
def compressImage (enc : ℕ → Blob) (targetSizeKB : ℕ) : CompressResult × List ℤ × ℕ :=
  tryCompressRun enc (targetSizeKB * 1024) 26 initCState

/-- The aspect-ratio / max-clamp part of `calculateOptimalDimensions`
(imageProcessor.js lines 64-89), before the minimum-dimension floor, over
exact rationals.  `sq` abstracts `Math.sqrt`; the two max clamps are
sequential, the second seeing the first's updates, exactly as in the
source. -/
def calcOptPreFloor (sq : ℚ → ℚ) (ow oh : ℕ) (currentSize targetSize : ℚ)
    (maxW maxH : ℕ) : ℚ × ℚ :=
  let originalPixels : ℚ := (ow : ℚ) * (oh : ℚ)
  let targetPixels : ℚ := ((⌊originalPixels * targetSize / (currentSize * (6/5))⌋ : ℤ) : ℚ)
  let ar : ℚ := (ow : ℚ) / (oh : ℚ)
  let h0 := sq (targetPixels / ar)
  let w0 := h0 * ar
  let w1 := if (maxW : ℚ) < w0 then (maxW : ℚ) else w0
  let h1 := if (maxW : ℚ) < w0 then (maxW : ℚ) / ar else h0
  let h2 := if (maxH : ℚ) < h1 then (maxH : ℚ) else h1
  let w2 := if (maxH : ℚ) < h1 then (maxH : ℚ) * ar else w1
  (w2, h2)

/-- `calculateOptimalDimensions` before integer rounding (imageProcessor.js
lines 64-98): the clamped dimensions plus the minimum-dimension floor
(min 200 px per side; upscale by the larger needed factor, then re-clamp
each side independently to the max bounds). -/
def calculateOptimalDimensionsQ (sq : ℚ → ℚ) (ow oh : ℕ) (currentSize targetSize : ℚ)
    (maxW maxH : ℕ) : ℚ × ℚ :=
  let wh := calcOptPreFloor sq ow oh currentSize targetSize maxW maxH
  if wh.1 < 200 ∨ wh.2 < 200 then
    let scale := max (200 / wh.1) (200 / wh.2)
    (min (wh.1 * scale) (maxW : ℚ), min (wh.2 * scale) (maxH : ℚ))
  else wh

/-- `calculateOptimalDimensions` (imageProcessor.js lines 64-103): the
`Math.round`ed output dimensions. -/
def calculateOptimalDimensions (sq : ℚ → ℚ) (ow oh : ℕ) (currentSize targetSize : ℚ)
    (maxW maxH : ℕ) : ℤ × ℤ :=
  let wh := calculateOptimalDimensionsQ sq ow oh currentSize targetSize maxW maxH
  (round wh.1, round wh.2)

/-- The per-page dimension planner of `extractAndProcessPages`
(pdfProcessor.js lines 404-419) before the minimum floor: note it derives
the width from the square root and the height from the width, and uses the
safety factor 1.15. -/
def pdfPlanPreFloor (sq : ℚ → ℚ) (w h : ℕ) (estimatedFullSize t : ℚ)
    (maxW maxH : ℕ) : ℚ × ℚ :=
  let originalPixels : ℚ := (w : ℚ) * (h : ℚ)
  let targetPixels : ℚ := ((⌊originalPixels * t / (estimatedFullSize * (23/20))⌋ : ℤ) : ℚ)
  let r : ℚ := (w : ℚ) / (h : ℚ)
  let ow0 := sq (targetPixels / r)
  let oh0 := ow0 / r
  let ow1 := if (maxW : ℚ) < ow0 then (maxW : ℚ) else ow0
  let oh1 := if (maxW : ℚ) < ow0 then (maxW : ℚ) / r else oh0
  let oh2 := if (maxH : ℚ) < oh1 then (maxH : ℚ) else oh1
  let ow2 := if (maxH : ℚ) < oh1 then (maxH : ℚ) * r else ow1
  (ow2, oh2)

/-- The per-page dimension planner of `extractAndProcessPages`
(pdfProcessor.js lines 404-427) before rounding: adds the minimum floor
(150 px per side; both sides are multiplied by the same factor with no
re-clamping). -/
def pdfPlanDimsQ (sq : ℚ → ℚ) (w h : ℕ) (estimatedFullSize t : ℚ)
    (maxW maxH : ℕ) : ℚ × ℚ :=
  let wh := pdfPlanPreFloor sq w h estimatedFullSize t maxW maxH
  if wh.1 < 150 ∨ wh.2 < 150 then
    let scale := max (150 / wh.1) (150 / wh.2)
    (wh.1 * scale, wh.2 * scale)
  else wh

/-- The per-page dimension planner of `extractAndProcessPages`
(pdfProcessor.js lines 404-430): rounded output dimensions. -/
def pdfPlanDims (sq : ℚ → ℚ) (w h : ℕ) (estimatedFullSize t : ℚ)
    (maxW maxH : ℕ) : ℤ × ℤ :=
  let wh := pdfPlanDimsQ sq w h estimatedFullSize t maxW maxH
  (round wh.1, round wh.2)

/-- A source image file: its bytes, MIME type, and decoded pixel
dimensions (the result of `loadImage`). -/
structure ImgFile where
  blob : Blob
  ftype : String
  width : ℕ
  height : ℕ
deriving DecidableEq

/-- A preset: `{ maxSizeKB, format, widthPx, heightPx }`. -/
structure Preset where
  maxSizeKB : ℕ
  format : String
  widthPx : ℕ
  heightPx : ℕ
deriving DecidableEq

/-- The outcome `processImage` resolves with (imageProcessor.js lines
366-374), dimensions flattened into four fields. -/
structure Outcome where
  blob : Option Blob
  originalSize : ℕ
  newSize : JSize
  origW : ℤ
  origH : ℤ
  newW : ℤ
  newH : ℤ
  warning : Bool
  alreadyOptimal : Bool
deriving DecidableEq

/-- The full observable behaviour of one `processImage` call: the outcome,
the progress values delivered in order, and — as ghost instrumentation for
the proofs — the number of real encodes performed, whether the fallback
retry branch ran, and the raw `compressImage` results of the first and
(when present) retry attempts. -/
structure ProcResult where
  outcome : Outcome
  trace : List ℤ
  encodes : ℕ
  retried : Bool
  firstRes : Option CompressResult
  retryRes : Option CompressResult
deriving DecidableEq

/-- The single fallback retry of `processImage` (imageProcessor.js lines
463-487), parameterised by the first attempt's planned dimensions `dims`
and its full quality-search result `rtn`: shrink by
`sqrt(target / resultSize) · 0.9` (min 100 px per side; the size ratio is
`target / Infinity = 0` when the first result carries the sentinel), run a
second quality search with a no-op progress callback, and return whichever
of the two results has the smaller recorded `size` field (ties favour the
first attempt). -/
def retryStep (file : ImgFile) (preset : Preset) (enc : ℤ → ℤ → ℕ → Blob)
    (sq : ℚ → ℚ) (dims : ℤ × ℤ) (rtn : CompressResult × List ℤ × ℕ) : ProcResult :=
  let originalSize := file.blob.size
  let t := preset.maxSizeKB * 1024
  let result := rtn.1
  let sizeRatio : ℚ := match result.size with | .inf => 0 | .fin n => (t : ℚ) / (n : ℚ)
  let dimRatio := sq sizeRatio
  let retryW : ℤ := max 100 ⌊(dims.1 : ℚ) * dimRatio * (9/10)⌋
  let retryH : ℤ := max 100 ⌊(dims.2 : ℚ) * dimRatio * (9/10)⌋
  let rtn2 := tryCompressRun (enc retryW retryH) t 26 initCState
  let retryResult := rtn2.1
  if retryResult.size.jlt result.size = true then
    { outcome := ⟨retryResult.blob, originalSize, retryResult.size, (file.width : ℤ),
        (file.height : ℤ), retryW, retryH, retryResult.size.gtN t, false⟩,
      trace := 10 :: 20 :: 35 :: 45 :: 55 :: rtn.2.1 ++ [100],
      encodes := 1 + rtn.2.2 + rtn2.2.2, retried := true,
      firstRes := some result, retryRes := some retryResult }
  else
    { outcome := ⟨result.blob, originalSize, result.size, (file.width : ℤ),
        (file.height : ℤ), dims.1, dims.2, result.size.gtN t, false⟩,
      trace := 10 :: 20 :: 35 :: 45 :: 55 :: rtn.2.1 ++ [100],
      encodes := 1 + rtn.2.2 + rtn2.2.2, retried := true,
      firstRes := some result, retryRes := some retryResult }

/-- The smart-dimension path of `processImage` (imageProcessor.js lines
414-497): test thumbnail at scale 0.2 / quality 0.8 (min 100 px per side),
size estimate `testSize / testScale²`, dimension planning, quality search,
and the single fallback retry (shrink by `sqrt(target/resultSize)·0.9`,
re-search, keep the attempt whose recorded size is smaller; the retry's
progress callback is a no-op). -/
def processMain (file : ImgFile) (preset : Preset) (enc : ℤ → ℤ → ℕ → Blob)
    (sq : ℚ → ℚ) : ProcResult :=
  let originalSize := file.blob.size
  let t := preset.maxSizeKB * 1024
  let testW : ℤ := max 100 ⌊(file.width : ℚ) * (1/5)⌋
  let testH : ℤ := max 100 ⌊(file.height : ℚ) * (1/5)⌋
  let testBlob := enc testW testH 80
  let estimatedFullSize : ℚ := (testBlob.size : ℚ) / ((1/5) * (1/5))
  let dims := calculateOptimalDimensions sq file.width file.height estimatedFullSize
    (t : ℚ) preset.widthPx preset.heightPx
  let rtn := tryCompressRun (enc dims.1 dims.2) t 26 initCState
  let result := rtn.1
  if result.size.gtN t = true ∧ result.size.gtHalfOf originalSize = true then
    retryStep file preset enc sq dims rtn
  else
    { outcome := ⟨result.blob, originalSize, result.size, (file.width : ℤ),
        (file.height : ℤ), dims.1, dims.2, result.size.gtN t, false⟩,
      trace := 10 :: 20 :: 35 :: 45 :: 55 :: rtn.2.1 ++ [100],
      encodes := 1 + rtn.2.2, retried := false,
      firstRes := some result, retryRes := none }

/-- `processImage` (imageProcessor.js lines 376-498).  `enc w h q` abstracts
`canvas.toBlob` on the canvas holding this image resized to `w × h`
(`resizeToExact` at the source's own dimensions for the conversion path,
the test thumbnail, the planned dimensions, or the retry dimensions), at
quality `q` hundredths; `sq` abstracts `Math.sqrt`.  Paths: byte-identical
passthrough, format-conversion at unchanged dimensions, and the
smart-dimension path `processMain`. -/
def processImage (file : ImgFile) (preset : Preset) (enc : ℤ → ℤ → ℕ → Blob)
    (sq : ℚ → ℚ) : ProcResult :=
  let originalSize := file.blob.size
  let t := preset.maxSizeKB * 1024
  if originalSize ≤ t then
    if file.ftype = preset.format then
      { outcome := ⟨some file.blob, originalSize, .fin originalSize, (file.width : ℤ),
          (file.height : ℤ), (file.width : ℤ), (file.height : ℤ), false, true⟩,
        trace := [10, 20], encodes := 0, retried := false,
        firstRes := none, retryRes := none }
    else
      let rtn := tryCompressRun (enc (file.width : ℤ) (file.height : ℤ)) t 26 initCState
      { outcome := ⟨rtn.1.blob, originalSize, rtn.1.size, (file.width : ℤ), (file.height : ℤ),
          (file.width : ℤ), (file.height : ℤ), rtn.1.warning, !rtn.1.warning⟩,
        trace := 10 :: 20 :: rtn.2.1, encodes := rtn.2.2, retried := false,
        firstRes := some rtn.1, retryRes := none }
  else processMain file preset enc sq

/-- The mutable state of the inline per-page quality loop of
`extractAndProcessPages` (pdfProcessor.js lines 449-456); qualities in
hundredths. -/
structure PdfQState where
  quality : ℕ
  iterations : ℕ
  best : Option Blob
  bestSize : JSize
  bestQuality : ℕ
deriving DecidableEq

/-- Initial state of the per-page quality loop: quality 0.92, no best,
`bestSize = Infinity`. -/
def initPdfQState : PdfQState := ⟨92, 0, none, .inf, 92⟩

/-- The inline per-page quality loop of `extractAndProcessPages`
(pdfProcessor.js lines 458-504).  `cur` carries the loop's `resultBlob`
variable across iterations.  Returns (`resultBlob` at loop exit, `bestBlob`
at loop exit, number of encodes performed).  Same constants as
`compressImage`'s search; the only structural differences are that the
loop emits no progress and is followed by `if (bestBlob) resultBlob = bestBlob`. -/
def pdfQualityLoop (enc : ℕ → Blob) (t : ℕ) :
    ℕ → PdfQState → Option Blob → Option Blob × Option Blob × ℕ
  | 0, st, cur => (cur, st.best, 0)
  | fuel + 1, st, cur =>
    if 25 ≤ st.iterations then (cur, st.best, 0)
    else
      let blob := enc st.quality
      if blob.size ≤ t ∧ 85 * t ≤ 100 * blob.size then (some blob, some blob, 1)
      else
        let st1 : PdfQState :=
          if blob.size ≤ t ∧ JSize.nlt blob.size st.bestSize = true then
            { st with best := some blob, bestSize := .fin blob.size, bestQuality := st.quality }
          else st
        if st.iterations = 0 ∧ 200 * blob.size < 85 * t then (some blob, st1.best, 1)
        else if t < blob.size then
          if st.quality ≤ 30 then (some blob, st1.best, 1)
          else
            let reduction : ℕ := if t * 2 < blob.size then 15 else 8
            let st2 : PdfQState :=
              { st1 with quality := max 30 (st.quality - reduction), iterations := st.iterations + 1 }
            let r := pdfQualityLoop enc t fuel st2 (some blob)
            (r.1, r.2.1, r.2.2 + 1)
        else if 100 * blob.size < 85 * t ∧ st.quality < 98 then
          let st2 : PdfQState :=
            { st1 with quality := min 98 (st.quality + 5), iterations := st.iterations + 1 }
          let r := pdfQualityLoop enc t fuel st2 (some blob)
          (r.1, r.2.1, r.2.2 + 1)
        else (some blob, st1.best, 1)

/-- The blob a page's quality loop produces, after the post-loop
`if (bestBlob) { resultBlob = bestBlob }` (pdfProcessor.js lines 507-509),
paired with the number of encodes.  The loop always runs at least one
iteration, so the `Option.getD` default is never reached. -/
def pdfQualityResult (enc : ℕ → Blob) (t : ℕ) : Blob × ℕ :=
  let r := pdfQualityLoop enc t 26 initPdfQState none
  (match r.2.1 with
   | some b => b
   | none => r.1.getD ⟨0, 0⟩, r.2.2)

/-- One element of `extractAndProcessPages`' result array
(pdfProcessor.js lines 535-545), dimensions flattened. -/
structure PageOutcome where
  blob : Blob
  originalSize : ℕ
  newSize : ℕ
  origW : ℕ
  origH : ℕ
  newW : ℤ
  newH : ℤ
  warning : Bool
  pageNum : ℕ
deriving DecidableEq

/-- Per-page processing of `extractAndProcessPages` (pdfProcessor.js lines
366-546): render the page (`render p` gives the rendered canvas size),
test-encode a 0.15-scale thumbnail at quality 0.75 (min 80 px per side),
plan dimensions, run the quality loop, and optionally wrap the bytes into
a single-page PDF (`wrap` abstracts the pdf-lib rebuild). -/
def extractPage (render : ℕ → ℕ × ℕ) (penc : ℕ → ℤ → ℤ → ℕ → Blob)
    (wrap : Blob → Blob) (sq : ℚ → ℚ) (preset : Preset) (originalSize : ℕ)
    (p : ℕ) : PageOutcome :=
  let wh := render p
  let t := preset.maxSizeKB * 1024
  let testW : ℤ := max 80 ⌊(wh.1 : ℚ) * (3/20)⌋
  let testH : ℤ := max 80 ⌊(wh.2 : ℚ) * (3/20)⌋
  let testBlob := penc p testW testH 75
  let est : ℚ := (testBlob.size : ℚ) / ((3/20) * (3/20))
  let dims := pdfPlanDims sq wh.1 wh.2 est (t : ℚ) preset.widthPx preset.heightPx
  let qr := pdfQualityResult (penc p dims.1 dims.2) t
  let resultBlob := if preset.format = "application/pdf" then wrap qr.1 else qr.1
  ⟨resultBlob, originalSize, resultBlob.size, wh.1, wh.2, dims.1, dims.2,
    decide (t < resultBlob.size), p⟩

/-- `extractAndProcessPages` (pdfProcessor.js lines 341-551): maps the page
pipeline over the requested pages and returns the result list together
with the progress trace `10, 20 + round(idx·70/len) per page, 100`
(the inline quality loops emit no progress of their own). -/
def extractAndProcessPages (render : ℕ → ℕ × ℕ) (penc : ℕ → ℤ → ℤ → ℕ → Blob)
    (wrap : Blob → Blob) (sq : ℚ → ℚ) (preset : Preset) (originalSize : ℕ)
    (pages : List ℕ) : List PageOutcome × List ℤ :=
  let len := pages.length
  (pages.map (extractPage render penc wrap sq preset originalSize),
    10 :: ((List.range len).map fun idx : ℕ => 20 + round ((idx : ℚ) * (70 / (len : ℚ)))) ++ [100])

/-- The outcome of `compressFullPDF` (pdfProcessor.js lines 293-304), plus
the progress trace and — as ghost instrumentation — the byte sizes of the
rebuilt documents, one per attempt in order. -/
structure FullPdfRes where
  blob : Option Blob
  originalSize : ℕ
  newSize : JSize
  pageCount : ℕ
  warning : Bool
  attempts : List ℕ
  trace : List ℤ
deriving DecidableEq

/-- One attempt's progress value in `compressFullPDF`:
`10 + Math.round((attempt / maxAttempts) * 80)` with `maxAttempts = 10`
(pdfProcessor.js line 212). -/
def fullPdfProgress (attempt : ℕ) : ℤ := 10 + round ((attempt : ℚ) / 10 * 80)

/-- The attempt loop of `compressFullPDF` (pdfProcessor.js lines 211-304).
`enc q` abstracts one full rebuild of the document at uniform quality `q`
hundredths (render every page to JPEG at `q`, embed, save): it yields the
rebuilt document's blob.  Start quality 75; on overshoot lower by 10 to a
floor of 20, on undershoot raise by 5 to a cap of 85; accept the first
attempt in `[0.9·t, t]` (`9·t ≤ 10·size ∧ size ≤ t`); otherwise return the
tracked best.  The best-tracker is the source's own: an under-target
attempt larger than the current best wins, otherwise any attempt smaller
than the current best (or the very first attempt) wins. -/
def fullPdfLoop (enc : ℕ → Blob) (t : ℕ) (originalSize pageCount : ℕ) :
    ℕ → ℕ → ℕ → Option Blob → JSize → FullPdfRes
  | 0, _, _, best, bestSize =>
    ⟨best, originalSize, bestSize, pageCount, bestSize.gtN t, [], []⟩
  | fuel + 1, attempt, q, best, bestSize =>
    let blob := enc q
    let bs : Option Blob × JSize :=
      if blob.size ≤ t ∧ JSize.ltN bestSize blob.size = true then (some blob, .fin blob.size)
      else if best = none ∨ JSize.nlt blob.size bestSize = true then (some blob, .fin blob.size)
      else (best, bestSize)
    if blob.size ≤ t ∧ 9 * t ≤ 10 * blob.size then
      ⟨some blob, originalSize, .fin blob.size, pageCount, false,
        [blob.size], [fullPdfProgress attempt]⟩
    else if t < blob.size then
      if q ≤ 20 then
        ⟨bs.1, originalSize, bs.2, pageCount, bs.2.gtN t, [blob.size], [fullPdfProgress attempt]⟩
      else
        let r := fullPdfLoop enc t originalSize pageCount fuel (attempt + 1)
          (max 20 (q - 10)) bs.1 bs.2
        { r with attempts := blob.size :: r.attempts, trace := fullPdfProgress attempt :: r.trace }
    else
      if q < 85 then
        let r := fullPdfLoop enc t originalSize pageCount fuel (attempt + 1)
          (min 85 (q + 5)) bs.1 bs.2
        { r with attempts := blob.size :: r.attempts, trace := fullPdfProgress attempt :: r.trace }
      else
        ⟨bs.1, originalSize, bs.2, pageCount, bs.2.gtN t, [blob.size], [fullPdfProgress attempt]⟩

/-- `compressFullPDF` (pdfProcessor.js lines 195-305): the attempt loop from
quality 0.75 with 10 attempts of fuel, target `targetSizeKB * 1024`, and
the surrounding progress calls (initial 10, one per attempt, final 100 —
the early in-band return also emits its 100 last, so the trace shape is
uniform). -/
def compressFullPDF (enc : ℕ → Blob) (targetSizeKB originalSize pageCount : ℕ) : FullPdfRes :=
  let t := targetSizeKB * 1024
  let r := fullPdfLoop enc t originalSize pageCount 10 0 75 none .inf
  { r with trace := 10 :: r.trace ++ [100] }

/-!  Theorems about the embedded code, one per claim. -/

/-- C9: if `compressImage`'s `tryCompress` recursion reaches a state where
the 25-iteration cap is exhausted while no encode with size ≤ target was
ever recorded (`bestBlob` still null), it resolves — it does not reject —
with `{ blob: null, size: 0, quality: 0, warning: true }`, performing no
further encode: the caller gets a success value carrying no bytes rather
than the last attempted encode. -/
theorem c9_cap_without_best (enc : ℕ → Blob) (t fuel : ℕ) (st : CState)
    (hit : 25 ≤ st.iteration) (hb : st.best = none) :
    tryCompressRun enc t fuel st = (⟨none, .fin 0, 0, true⟩, [], 0) := by
  cases fuel with
  | zero => simp [tryCompressRun, capResult, hb]
  | succ n => simp [tryCompressRun, hit, capResult, hb]

/-- Witness for C9 at a concrete exhausted state. -/
theorem c9_cap_without_best_witness :
    25 ≤ (⟨30, 25, none, .inf, 30⟩ : CState).iteration ∧
    (⟨30, 25, none, .inf, 30⟩ : CState).best = none ∧
    tryCompressRun (fun _ => ⟨0, 0⟩) 1024 1 ⟨30, 25, none, .inf, 30⟩
      = (⟨none, .fin 0, 0, true⟩, [], 0) :=
  ⟨by decide, rfl, c9_cap_without_best (fun _ => ⟨0, 0⟩) 1024 1 _ (by decide) rfl⟩

/-- Helper: one step of the per-page quality loop on an in-band encode
terminates at once with that encode as both result and best. -/
theorem pdfQualityLoop_band_step (enc : ℕ → Blob) (t fuel : ℕ) (st : PdfQState)
    (cur : Option Blob) (hit : st.iterations < 25) (hle : (enc st.quality).size ≤ t)
    (hband : 85 * t ≤ 100 * (enc st.quality).size) :
    pdfQualityLoop enc t (fuel + 1) st cur
      = (some (enc st.quality), some (enc st.quality), 1) := by
  simp [pdfQualityLoop, Nat.not_le.mpr hit, hle, hband]

/-- C2: in both quality searches — `compressImage`'s recursion and the
inline per-page loop of `extractAndProcessPages` — the first real encode
whose size lies in the closed band `[0.85·target, target]` is accepted
immediately: the search performs no further encode (exactly this one encode
is charged to the step) and returns that very encode with warning false.
The third conjunct instantiates the per-page loop from its initial state,
including the post-loop `if (bestBlob) resultBlob = bestBlob` override. -/
theorem c2_band_accept_immediately :
    (∀ (enc : ℕ → Blob) (t fuel : ℕ) (st : CState),
      st.iteration < 25 →
      (enc st.quality).size ≤ t →
      85 * t ≤ 100 * (enc st.quality).size →
      tryCompressRun enc t (fuel + 1) st
        = (⟨some (enc st.quality), .fin (enc st.quality).size, st.quality, false⟩,
            [progressValue st.iteration], 1)) ∧
    (∀ (enc : ℕ → Blob) (t fuel : ℕ) (st : PdfQState) (cur : Option Blob),
      st.iterations < 25 →
      (enc st.quality).size ≤ t →
      85 * t ≤ 100 * (enc st.quality).size →
      pdfQualityLoop enc t (fuel + 1) st cur
        = (some (enc st.quality), some (enc st.quality), 1)) ∧
    (∀ (enc : ℕ → Blob) (t : ℕ),
      (enc 92).size ≤ t →
      85 * t ≤ 100 * (enc 92).size →
      pdfQualityResult enc t = (enc 92, 1)) := by
  refine ⟨?_, ?_, ?_⟩
  · intro enc t fuel st hit hle hband
    simp [tryCompressRun, Nat.not_le.mpr hit, hle, hband]
  · intro enc t fuel st cur hit hle hband
    exact pdfQualityLoop_band_step enc t fuel st cur hit hle hband
  · intro enc t hle hband
    have h := pdfQualityLoop_band_step enc t 25 initPdfQState none (by decide) hle hband
    have e : (25 : ℕ) + 1 = 26 := rfl
    rw [e] at h
    simp only [initPdfQState] at h
    simp [pdfQualityResult, initPdfQState, h]

/-- Witness for C2 with a concrete in-band encode. -/
theorem c2_band_accept_immediately_witness :
    ((initCState.iteration < 25 ∧ (1000 : ℕ) ≤ 1024 ∧ 85 * 1024 ≤ 100 * 1000) ∧
      tryCompressRun (fun _ => ⟨1, 1000⟩) 1024 25 initCState
        = (⟨some ⟨1, 1000⟩, .fin 1000, 92, false⟩, [progressValue 0], 1)) ∧
    pdfQualityResult (fun _ => ⟨1, 1000⟩) 1024 = (⟨1, 1000⟩, 1) :=
  ⟨⟨⟨by decide, by decide, by decide⟩,
      c2_band_accept_immediately.1 (fun _ => ⟨1, 1000⟩) 1024 24 initCState
        (by decide) (by decide) (by decide)⟩,
    c2_band_accept_immediately.2.2 (fun _ => ⟨1, 1000⟩) 1024 (by decide) (by decide)⟩

/-- C3: when the source file already fits the byte budget and its format
equals the requested output format, `processImage` performs zero encodes
and returns the input bytes themselves: blob is the input file, newSize
equals originalSize, warning is false and alreadyOptimal is true. -/
theorem c3_passthrough (file : ImgFile) (preset : Preset) (enc : ℤ → ℤ → ℕ → Blob)
    (sq : ℚ → ℚ) (hsize : file.blob.size ≤ preset.maxSizeKB * 1024)
    (hfmt : file.ftype = preset.format) :
    processImage file preset enc sq
      = { outcome := ⟨some file.blob, file.blob.size, .fin file.blob.size, (file.width : ℤ),
            (file.height : ℤ), (file.width : ℤ), (file.height : ℤ), false, true⟩,
          trace := [10, 20], encodes := 0, retried := false,
          firstRes := none, retryRes := none } := by
  simp [processImage, hsize, hfmt]

/-- Witness for C3 at a concrete small file. -/
theorem c3_passthrough_witness :
    ((500 : ℕ) ≤ 1 * 1024 ∧ "image/jpeg" = "image/jpeg") ∧
    processImage ⟨⟨1, 500⟩, "image/jpeg", 10, 10⟩ ⟨1, "image/jpeg", 100, 100⟩
        (fun _ _ _ => ⟨0, 0⟩) (fun _ => 0)
      = { outcome := ⟨some ⟨1, 500⟩, 500, .fin 500, 10, 10, 10, 10, false, true⟩,
          trace := [10, 20], encodes := 0, retried := false,
          firstRes := none, retryRes := none } :=
  ⟨⟨by decide, rfl⟩,
    c3_passthrough ⟨⟨1, 500⟩, "image/jpeg", 10, 10⟩ ⟨1, "image/jpeg", 100, 100⟩
      (fun _ _ _ => ⟨0, 0⟩) (fun _ => 0) (by decide) rfl⟩

/-- C10: if the quality search stops at the quality floor (current encode
still over target with quality ≤ 0.3) while no encode ≤ target was ever
recorded, the resolved result's `size` field is the never-updated
`Infinity` sentinel (because `bestSize || blob.size` keeps the truthy
`Infinity`), while its `blob` field is the last attempted encode — so the
reported size does not equal `blob.size`. -/
theorem c10_floor_sentinel (enc : ℕ → Blob) (t fuel : ℕ) (st : CState)
    (hit : st.iteration < 25) (hb : st.best = none) (hbs : st.bestSize = .inf)
    (hover : t < (enc st.quality).size) (hq : st.quality ≤ 30) :
    tryCompressRun enc t (fuel + 1) st
      = (⟨some (enc st.quality), .inf, qOr st.bestQuality st.quality, true⟩,
          [progressValue st.iteration], 1) ∧
    JSize.inf ≠ JSize.fin (enc st.quality).size := by
  constructor
  · have hnb : ¬ ((enc st.quality).size ≤ t) := Nat.not_le.mpr hover
    have hfar : ¬ (200 * (enc st.quality).size < 85 * t) := by omega
    simp [tryCompressRun, Nat.not_le.mpr hit, hnb, hfar, hover, hq, hb, hbs,
      JSize.orElse, JSize.truthy]
  · simp

/-- Witness for C10: the floor state with no recorded best, instantiated at
a constant over-target encoder; the final conjuncts check the same state is
actually reached by a full run from the initial state (qualities 92, 77, 62,
47, 32, 30 — six encodes — with the sentinel `Infinity` as the reported
size and the last 5000-byte encode as the blob). -/
theorem c10_floor_sentinel_witness :
    ((⟨30, 5, none, JSize.inf, 92⟩ : CState).iteration < 25 ∧
      (1024 : ℕ) < 5000 ∧ (30 : ℕ) ≤ 30) ∧
    (tryCompressRun (fun _ => ⟨7, 5000⟩) 1024 (20 + 1) ⟨30, 5, none, .inf, 92⟩
      = (⟨some ⟨7, 5000⟩, .inf, qOr 92 30, true⟩, [progressValue 5], 1) ∧
      JSize.inf ≠ JSize.fin 5000) ∧
    (tryCompressRun (fun _ => ⟨7, 5000⟩) 1024 26 initCState).1
      = ⟨some ⟨7, 5000⟩, .inf, 92, true⟩ ∧
    (tryCompressRun (fun _ => ⟨7, 5000⟩) 1024 26 initCState).2.2 = 6 :=
  ⟨⟨by decide, by decide, by decide⟩,
    c10_floor_sentinel (fun _ => ⟨7, 5000⟩) 1024 20 ⟨30, 5, none, .inf, 92⟩
      (by decide) rfl rfl (by decide) (by decide),
    by decide, by decide⟩

/-- Helper: a false conjunction of boolean equations, read back as `&&`. -/
theorem bool_and_of_not_and (a b : Bool) (h : ¬ (a = true ∧ b = true)) :
    false = (a && b) := by
  cases a <;> cases b <;> simp_all

/-- Helper: the retry step's outcome always carries
`warning = newSize > target`, whichever attempt it selects. -/
theorem retryStep_warning (file : ImgFile) (preset : Preset) (enc : ℤ → ℤ → ℕ → Blob)
    (sq : ℚ → ℚ) (dims : ℤ × ℤ) (rtn : CompressResult × List ℤ × ℕ) :
    (retryStep file preset enc sq dims rtn).outcome.warning
      = (retryStep file preset enc sq dims rtn).outcome.newSize.gtN (preset.maxSizeKB * 1024) := by
  simp only [retryStep]
  split
  · rfl
  · rfl

/-- Helper: the retry step reports `retried = true`, keeps the first result
as `firstRes`, exposes the second search's result as `retryRes`, and selects
the outcome by the sentinel comparison `retryResult.size < result.size`. -/
theorem retryStep_spec (file : ImgFile) (preset : Preset) (enc : ℤ → ℤ → ℕ → Blob)
    (sq : ℚ → ℚ) (dims : ℤ × ℤ) (rtn : CompressResult × List ℤ × ℕ) :
    ∃ r2, (retryStep file preset enc sq dims rtn).retried = true ∧
      (retryStep file preset enc sq dims rtn).firstRes = some rtn.1 ∧
      (retryStep file preset enc sq dims rtn).retryRes = some r2 ∧
      (r2.size.jlt rtn.1.size = true →
        (retryStep file preset enc sq dims rtn).outcome.blob = r2.blob ∧
        (retryStep file preset enc sq dims rtn).outcome.newSize = r2.size) ∧
      (r2.size.jlt rtn.1.size = false →
        (retryStep file preset enc sq dims rtn).outcome.blob = rtn.1.blob ∧
        (retryStep file preset enc sq dims rtn).outcome.newSize = rtn.1.size) := by
  simp only [retryStep]
  split
  · rename_i hlt
    exact ⟨_, rfl, rfl, rfl, fun _ => ⟨rfl, rfl⟩, fun hf => absurd hlt (by rw [hf]; simp)⟩
  · rename_i hlt
    exact ⟨_, rfl, rfl, rfl, fun ht => absurd ht hlt, fun _ => ⟨rfl, rfl⟩⟩

/-- C1 (amended): on the byte-identical passthrough path and on the
smart-dimension path (with or without its fallback retry), the returned
outcome's warning flag equals `newSize > targetSizeBytes`, because
`processImage` recomputes it there.  The excluded format-conversion path
(file already within budget but with a different format) instead inherits
the quality search's own flag, which `c1_counterexample` shows can be true
with `newSize ≤ target`. -/
theorem c1_warning_iff_oversize (file : ImgFile) (preset : Preset)
    (enc : ℤ → ℤ → ℕ → Blob) (sq : ℚ → ℚ)
    (h : ¬ (file.blob.size ≤ preset.maxSizeKB * 1024) ∨ file.ftype = preset.format) :
    (processImage file preset enc sq).outcome.warning
      = (processImage file preset enc sq).outcome.newSize.gtN (preset.maxSizeKB * 1024) := by
  by_cases hs : file.blob.size ≤ preset.maxSizeKB * 1024
  · have hf : file.ftype = preset.format := h.resolve_left (not_not_intro hs)
    simp [processImage, hs, hf, JSize.gtN, Nat.not_lt.mpr hs]
  · simp only [processImage, hs, if_false, processMain]
    split
    · exact retryStep_warning file preset enc sq _ _
    · rfl

/-- Witness for C1's amended theorem on a concrete oversized file. -/
theorem c1_warning_iff_oversize_witness :
    (¬ ((2000 : ℕ) ≤ 1 * 1024) ∨ "image/png" = "image/jpeg") ∧
    (processImage ⟨⟨1, 2000⟩, "image/png", 10, 10⟩ ⟨1, "image/jpeg", 100, 100⟩
        (fun _ _ _ => ⟨0, 600⟩) (fun _ => 0)).outcome.warning
      = (processImage ⟨⟨1, 2000⟩, "image/png", 10, 10⟩ ⟨1, "image/jpeg", 100, 100⟩
          (fun _ _ _ => ⟨0, 600⟩) (fun _ => 0)).outcome.newSize.gtN (1 * 1024) :=
  ⟨Or.inl (by decide),
    c1_warning_iff_oversize ⟨⟨1, 2000⟩, "image/png", 10, 10⟩ ⟨1, "image/jpeg", 100, 100⟩
      (fun _ _ _ => ⟨0, 600⟩) (fun _ => 0) (Or.inl (by decide))⟩

/-- Encoder for the C1 counterexample: quality 0.32 yields a small 500-byte
encode, every other quality a 5000-byte encode. -/
def encC1 : ℤ → ℤ → ℕ → Blob := fun _ _ q => if q = 32 then ⟨1, 500⟩ else ⟨2, 5000⟩

/-- C1 counterexample: a 600-byte PNG with a 1 KB JPEG target takes the
format-conversion path; the search descends 92, 77, 62, 47, reaches 32 and
records a 500-byte under-target best, climbs to 37, then falls to the
quality floor 30 where the source hard-codes `warning: true` — so the
outcome has `exceededTarget = true` although `newSize = 500 ≤ 1024`,
refuting the claimed biconditional. -/
theorem c1_counterexample :
    (processImage ⟨⟨3, 600⟩, "image/png", 50, 40⟩ ⟨1, "image/jpeg", 800, 800⟩
        encC1 (fun _ => 0)).outcome.warning = true ∧
    (processImage ⟨⟨3, 600⟩, "image/png", 50, 40⟩ ⟨1, "image/jpeg", 800, 800⟩
        encC1 (fun _ => 0)).outcome.newSize = .fin 500 ∧
    ¬ (1 * 1024 < 500) := by
  refine ⟨by decide, by decide, by decide⟩

/-- C6 (amended): on the smart-dimension path, `processImage` runs its
single fallback retry exactly when the first search result satisfies the
source's own test `result.size > target && result.size > originalSize·0.5`
(which, for a floor-stop with no recorded best, compares the `Infinity`
sentinel, not the actual encoded byte size), and the returned outcome is
chosen by comparing the two results' recorded `size` fields — again the
sentinels, not necessarily the blobs' byte sizes.  At most one retry
occurs: the single optional `retryRes` is the only second attempt. -/
theorem c6_retry_semantics (file : ImgFile) (preset : Preset)
    (enc : ℤ → ℤ → ℕ → Blob) (sq : ℚ → ℚ)
    (h : ¬ (file.blob.size ≤ preset.maxSizeKB * 1024)) :
    ∃ r1, (processImage file preset enc sq).firstRes = some r1 ∧
      (processImage file preset enc sq).retried
        = (r1.size.gtN (preset.maxSizeKB * 1024) && r1.size.gtHalfOf file.blob.size) ∧
      ((processImage file preset enc sq).retried = false →
        (processImage file preset enc sq).retryRes = none ∧
        (processImage file preset enc sq).outcome.blob = r1.blob ∧
        (processImage file preset enc sq).outcome.newSize = r1.size) ∧
      ((processImage file preset enc sq).retried = true →
        ∃ r2, (processImage file preset enc sq).retryRes = some r2 ∧
          (r2.size.jlt r1.size = true →
            (processImage file preset enc sq).outcome.blob = r2.blob ∧
            (processImage file preset enc sq).outcome.newSize = r2.size) ∧
          (r2.size.jlt r1.size = false →
            (processImage file preset enc sq).outcome.blob = r1.blob ∧
            (processImage file preset enc sq).outcome.newSize = r1.size)) := by
  simp only [processImage, h, if_false, processMain]
  split
  · rename_i hc
    obtain ⟨r2, hr, hf, hrr, ha, hb⟩ := retryStep_spec file preset enc sq _ _
    exact ⟨_, hf, by rw [hr, hc.1, hc.2]; rfl, by rw [hr]; simp, fun _ => ⟨r2, hrr, ha, hb⟩⟩
  · rename_i hc
    exact ⟨_, rfl, bool_and_of_not_and _ _ hc, fun _ => ⟨rfl, rfl, rfl⟩, by simp⟩

/-- File for the C6 witness: 2000 bytes, over a 1 KB target. -/
def c6wFile : ImgFile := ⟨⟨1, 2000⟩, "image/jpeg", 10, 10⟩

/-- Preset for the C6 witness. -/
def c6wPreset : Preset := ⟨1, "image/jpeg", 100, 100⟩

/-- Constant encoder for the C6 witness. -/
def c6wEnc : ℤ → ℤ → ℕ → Blob := fun _ _ _ => ⟨0, 600⟩

/-- Witness for C6's amended theorem at a concrete oversized file. -/
theorem c6_retry_semantics_witness :
    ¬ (c6wFile.blob.size ≤ c6wPreset.maxSizeKB * 1024) ∧
    (∃ r1, (processImage c6wFile c6wPreset c6wEnc (fun _ => 0)).firstRes = some r1 ∧
      (processImage c6wFile c6wPreset c6wEnc (fun _ => 0)).retried
        = (r1.size.gtN (c6wPreset.maxSizeKB * 1024) && r1.size.gtHalfOf c6wFile.blob.size) ∧
      ((processImage c6wFile c6wPreset c6wEnc (fun _ => 0)).retried = false →
        (processImage c6wFile c6wPreset c6wEnc (fun _ => 0)).retryRes = none ∧
        (processImage c6wFile c6wPreset c6wEnc (fun _ => 0)).outcome.blob = r1.blob ∧
        (processImage c6wFile c6wPreset c6wEnc (fun _ => 0)).outcome.newSize = r1.size) ∧
      ((processImage c6wFile c6wPreset c6wEnc (fun _ => 0)).retried = true →
        ∃ r2, (processImage c6wFile c6wPreset c6wEnc (fun _ => 0)).retryRes = some r2 ∧
          (r2.size.jlt r1.size = true →
            (processImage c6wFile c6wPreset c6wEnc (fun _ => 0)).outcome.blob = r2.blob ∧
            (processImage c6wFile c6wPreset c6wEnc (fun _ => 0)).outcome.newSize = r2.size) ∧
          (r2.size.jlt r1.size = false →
            (processImage c6wFile c6wPreset c6wEnc (fun _ => 0)).outcome.blob = r1.blob ∧
            (processImage c6wFile c6wPreset c6wEnc (fun _ => 0)).outcome.newSize = r1.size))) :=
  ⟨by decide, c6_retry_semantics c6wFile c6wPreset c6wEnc (fun _ => 0) (by decide)⟩

/-- Encoder for the C6 counterexample: the test encode (quality 0.8) gives
30 bytes; on the planned 200-px canvas every encode is 5000 bytes; on the
100-px retry canvas every encode is 1100 bytes. -/
def encC6 : ℤ → ℤ → ℕ → Blob := fun w _ q =>
  if q = 80 then ⟨1, 30⟩ else if w = 200 then ⟨2, 5000⟩ else ⟨3, 1100⟩

/-- Source file for the C6 counterexample: 5000 bytes, 60×60 px. -/
def fileC6 : ImgFile := ⟨⟨4, 5000⟩, "image/jpeg", 60, 60⟩

/-- Preset for the C6 counterexample: 1 KB target, 4000-px max box. -/
def presetC6 : Preset := ⟨1, "image/jpeg", 4000, 4000⟩

/-- Square root capability for the C6 counterexample: exact at both of the
arguments it is applied to (√4096 = 64 for the planner, √0 = 0 for the
retry shrink ratio). -/
def sqC6 : ℚ → ℚ := fun x => if x = 4096 then 64 else 0

/-- C6 counterexample: with a 5000-byte 60×60 source, a 1 KB target, and
the encoder above, both the first attempt and the retry end at the quality
floor with the `Infinity` sentinel as their recorded size.  The comparison
`retryResult.size < result.size` is `Infinity < Infinity = false`, so
`processImage` returns the first attempt's 5000-byte blob even though the
discarded retry attempt encoded only 1100 bytes — refuting "keep whichever
of the two attempts produced the smaller encoded size". -/
theorem c6_counterexample :
    (processImage fileC6 presetC6 encC6 sqC6).retried = true ∧
    (processImage fileC6 presetC6 encC6 sqC6).retryRes
      = some ⟨some ⟨3, 1100⟩, .inf, 92, true⟩ ∧
    (processImage fileC6 presetC6 encC6 sqC6).outcome.blob = some ⟨2, 5000⟩ ∧
    (1100 : ℕ) < 5000 := by
  have hmain1 : (tryCompressRun (encC6 200 200) 1024 26 initCState).1
      = ⟨some ⟨2, 5000⟩, .inf, 92, true⟩ := by decide
  have hretry1 : (tryCompressRun (encC6 100 100) 1024 26 initCState).1
      = ⟨some ⟨3, 1100⟩, .inf, 92, true⟩ := by decide
  have hW : (max 100 ⌊((60 : ℕ) : ℚ) * (1/5)⌋ : ℤ) = 100 := by norm_num
  have henc : encC6 100 100 80 = ⟨1, 30⟩ := by decide
  have hdims : calculateOptimalDimensions sqC6 60 60 (((30 : ℕ) : ℚ) / ((1/5) * (1/5)))
      ((1024 : ℕ) : ℚ) 4000 4000 = (200, 200) := by
    norm_num [calculateOptimalDimensions, calculateOptimalDimensionsQ, calcOptPreFloor,
      sqC6, round_eq, max_def, min_def]
  simp only [processImage, processMain, retryStep, fileC6, presetC6, one_mul]
  rw [hW, henc]
  simp only []
  rw [hdims]
  simp only []
  rw [hmain1]
  simp only [JSize.gtN, JSize.gtHalfOf]
  norm_num [sqC6]
  rw [hretry1]
  simp [JSize.jlt, JSize.gtN]

/-- Helper: before the minimum-dimension floor, `calculateOptimalDimensions`
keeps the width equal to the height times the aspect ratio through both
sequential max clamps. -/
theorem calcOptPreFloor_ratio (sq : ℚ → ℚ) (ow oh : ℕ) (cs ts : ℚ) (maxW maxH : ℕ)
    (how : 0 < ow) (hoh : 0 < oh) :
    (calcOptPreFloor sq ow oh cs ts maxW maxH).1
      = (calcOptPreFloor sq ow oh cs ts maxW maxH).2 * ((ow : ℚ) / (oh : ℚ)) := by
  have how0 : ((ow : ℚ)) ≠ 0 := by positivity
  have hoh0 : ((oh : ℚ)) ≠ 0 := by positivity
  simp only [calcOptPreFloor]
  split_ifs <;> field_simp

/-- Helper: the per-page planner of `extractAndProcessPages` keeps the width
equal to the height times the aspect ratio through both sequential max
clamps, before its minimum floor. -/
theorem pdfPlanPreFloor_ratio (sq : ℚ → ℚ) (w h : ℕ) (est t : ℚ) (maxW maxH : ℕ)
    (hw : 0 < w) (hh : 0 < h) :
    (pdfPlanPreFloor sq w h est t maxW maxH).1
      = (pdfPlanPreFloor sq w h est t maxW maxH).2 * ((w : ℚ) / (h : ℚ)) := by
  have hw0 : ((w : ℚ)) ≠ 0 := by positivity
  have hh0 : ((h : ℚ)) ≠ 0 := by positivity
  simp only [pdfPlanPreFloor]
  split_ifs <;> field_simp

/-- C4 (amended): before integer rounding, both planners preserve the
aspect ratio of the original dimensions exactly through the max-dimension
clamps; the PDF per-page planner also preserves it through its minimum
floor (which scales both sides uniformly), while the image planner
preserves it through the minimum floor only when the floor's re-clamp to
the max box does not bind (`c4_counterexample` shows it breaks the ratio
arbitrarily when it does bind). -/
theorem c4_aspect_ratio :
    (∀ (sq : ℚ → ℚ) (ow oh : ℕ) (cs ts : ℚ) (maxW maxH : ℕ),
      0 < ow → 0 < oh →
      0 < (calcOptPreFloor sq ow oh cs ts maxW maxH).2 →
      (¬ ((calcOptPreFloor sq ow oh cs ts maxW maxH).1 < 200 ∨
          (calcOptPreFloor sq ow oh cs ts maxW maxH).2 < 200) ∨
        ((calcOptPreFloor sq ow oh cs ts maxW maxH).1 *
            max (200 / (calcOptPreFloor sq ow oh cs ts maxW maxH).1)
                (200 / (calcOptPreFloor sq ow oh cs ts maxW maxH).2) ≤ (maxW : ℚ) ∧
          (calcOptPreFloor sq ow oh cs ts maxW maxH).2 *
            max (200 / (calcOptPreFloor sq ow oh cs ts maxW maxH).1)
                (200 / (calcOptPreFloor sq ow oh cs ts maxW maxH).2) ≤ (maxH : ℚ))) →
      (calculateOptimalDimensionsQ sq ow oh cs ts maxW maxH).1
        = (calculateOptimalDimensionsQ sq ow oh cs ts maxW maxH).2 * ((ow : ℚ) / (oh : ℚ))) ∧
    (∀ (sq : ℚ → ℚ) (w h : ℕ) (est t : ℚ) (maxW maxH : ℕ),
      0 < w → 0 < h →
      0 < (pdfPlanPreFloor sq w h est t maxW maxH).2 →
      (pdfPlanDimsQ sq w h est t maxW maxH).1
        = (pdfPlanDimsQ sq w h est t maxW maxH).2 * ((w : ℚ) / (h : ℚ))) := by
  constructor
  · intro sq ow oh cs ts maxW maxH how hoh _ hfloor
    have hr := calcOptPreFloor_ratio sq ow oh cs ts maxW maxH how hoh
    simp only [calculateOptimalDimensionsQ]
    split
    · rename_i hcond
      rcases hfloor with hfloor | hfloor
      · exact absurd hcond hfloor
      · rw [min_eq_left hfloor.1, min_eq_left hfloor.2, hr]
        ring
    · exact hr
  · intro sq w h est t maxW maxH hw hh _
    have hr := pdfPlanPreFloor_ratio sq w h est t maxW maxH hw hh
    simp only [pdfPlanDimsQ]
    split
    · rw [hr]; ring
    · exact hr

/-- Witness for C4's amended theorem: a 400×400 source whose planned
dimensions are 300×300 (no floor, no clamps) for both planners. -/
theorem c4_aspect_ratio_witness :
    ((0 < 400 ∧ 0 < (calcOptPreFloor (fun _ => 300) 400 400 1 1 500 500).2 ∧
      ¬ ((calcOptPreFloor (fun _ => 300) 400 400 1 1 500 500).1 < 200 ∨
         (calcOptPreFloor (fun _ => 300) 400 400 1 1 500 500).2 < 200)) ∧
      (calculateOptimalDimensionsQ (fun _ => 300) 400 400 1 1 500 500).1
        = (calculateOptimalDimensionsQ (fun _ => 300) 400 400 1 1 500 500).2
            * ((400 : ℚ) / (400 : ℚ))) ∧
    ((0 < (pdfPlanPreFloor (fun _ => 300) 400 400 1 1 500 500).2) ∧
      (pdfPlanDimsQ (fun _ => 300) 400 400 1 1 500 500).1
        = (pdfPlanDimsQ (fun _ => 300) 400 400 1 1 500 500).2 * ((400 : ℚ) / (400 : ℚ))) :=
  ⟨⟨⟨by norm_num, by norm_num [calcOptPreFloor], by norm_num [calcOptPreFloor]⟩,
      c4_aspect_ratio.1 (fun _ => 300) 400 400 1 1 500 500 (by norm_num) (by norm_num)
        (by norm_num [calcOptPreFloor]) (Or.inl (by norm_num [calcOptPreFloor]))⟩,
    ⟨by norm_num [pdfPlanPreFloor],
      c4_aspect_ratio.2 (fun _ => 300) 400 400 1 1 500 500 (by norm_num) (by norm_num)
        (by norm_num [pdfPlanPreFloor])⟩⟩

/-- Square root capability for the C4 counterexample, exact at the only
argument used (√1 = 1: the planner divides targetPixels 100 by aspect
ratio 100). -/
def sqC4 : ℚ → ℚ := fun x => if x = 1 then 1 else 0

/-- C4 counterexample: a 1000×10 source (aspect ratio 100) with
currentSize 1000, targetSize 12 and a 250×250 max box plans pre-floor
dimensions 100×1; the minimum-dimension floor scales by 200 and its
re-clamp to the max box yields 250×200 — aspect ratio 1.25 instead of 100,
refuting "within a small epsilon of originalWidth/originalHeight". -/
theorem c4_counterexample :
    calculateOptimalDimensions sqC4 1000 10 1000 12 250 250 = (250, 200) ∧
    (90 : ℚ) ≤ |(250 : ℚ) / 200 - (1000 : ℚ) / 10| := by
  constructor
  · norm_num [calculateOptimalDimensions, calculateOptimalDimensionsQ, calcOptPreFloor,
      sqC4, round_eq, max_def, min_def]
  · rw [abs_of_nonpos (by norm_num)]
    norm_num

/-- Helper: after one best-tracker update in `compressFullPDF`, the tracked
size is over target exactly when it was over target before and the new
attempt is over target too (given the tracker's structural invariant). -/
theorem fullPdf_update_gtN (t : ℕ) (best : Option Blob) (bestSize : JSize) (blob : Blob)
    (h1 : best = none → bestSize = .inf)
    (h2 : ∀ b, best = some b → bestSize = .fin b.size) :
    (if blob.size ≤ t ∧ JSize.ltN bestSize blob.size = true
        then ((some blob : Option Blob), JSize.fin blob.size)
      else if best = none ∨ JSize.nlt blob.size bestSize = true
        then ((some blob : Option Blob), JSize.fin blob.size)
      else (best, bestSize)).2.gtN t
      = (bestSize.gtN t && decide (t < blob.size)) := by
  split_ifs with hu1 hu2
  · simp [JSize.gtN, Nat.not_lt.mpr hu1.1]
  · rcases hu2 with hb | hb
    · rw [h1 hb]
      simp [JSize.gtN]
    · cases hbs : bestSize with
      | inf => simp [JSize.gtN]
      | fin m =>
        rw [hbs] at hb
        simp only [JSize.nlt, decide_eq_true_eq] at hb
        simp only [JSize.gtN, Bool.and_eq_true, decide_eq_true_eq]
        by_cases hts : t < blob.size
        · simp [hts, Nat.lt_trans hts hb]
        · simp [hts]
  · cases hbest : best with
    | none => exact absurd (Or.inl hbest) hu2
    | some b =>
      rw [h2 b hbest]
      rw [h2 b hbest] at hu2
      have hnlt : ¬ (blob.size < b.size) := by
        intro hlt
        exact hu2 (Or.inr (by simp [JSize.nlt, hlt]))
      simp only [JSize.gtN, Bool.and_eq_true, decide_eq_true_eq]
      by_cases htb : t < b.size
      · simp [htb, Nat.lt_of_lt_of_le htb (Nat.le_of_not_lt hnlt)]
      · simp [htb]

/-- Helper: through the whole attempt loop of `compressFullPDF`, the final
warning flag is true exactly when the tracked best was over target on entry
and every attempt the loop performs is over target. -/
theorem fullPdfLoop_warning_iff (enc : ℕ → Blob) (t osize pc : ℕ) :
    ∀ (fuel attempt q : ℕ) (best : Option Blob) (bestSize : JSize),
      (best = none → bestSize = .inf) →
      (∀ b, best = some b → bestSize = .fin b.size) →
      ((fullPdfLoop enc t osize pc fuel attempt q best bestSize).warning = true ↔
        (bestSize.gtN t = true ∧
          ∀ s ∈ (fullPdfLoop enc t osize pc fuel attempt q best bestSize).attempts, t < s)) := by
  intro fuel
  induction fuel with
  | zero =>
    intro attempt q best bestSize _ _
    simp [fullPdfLoop]
  | succ n ih =>
    intro attempt q best bestSize h1 h2
    have hupd := fullPdf_update_gtN t best bestSize (enc q) h1 h2
    have hinv1 : (if (enc q).size ≤ t ∧ JSize.ltN bestSize (enc q).size = true
          then ((some (enc q) : Option Blob), JSize.fin (enc q).size)
        else if best = none ∨ JSize.nlt (enc q).size bestSize = true
          then ((some (enc q) : Option Blob), JSize.fin (enc q).size)
        else (best, bestSize)).1 = none →
        (if (enc q).size ≤ t ∧ JSize.ltN bestSize (enc q).size = true
          then ((some (enc q) : Option Blob), JSize.fin (enc q).size)
        else if best = none ∨ JSize.nlt (enc q).size bestSize = true
          then ((some (enc q) : Option Blob), JSize.fin (enc q).size)
        else (best, bestSize)).2 = .inf := by
      split_ifs <;> simp_all
    have hinv2 : ∀ b, (if (enc q).size ≤ t ∧ JSize.ltN bestSize (enc q).size = true
          then ((some (enc q) : Option Blob), JSize.fin (enc q).size)
        else if best = none ∨ JSize.nlt (enc q).size bestSize = true
          then ((some (enc q) : Option Blob), JSize.fin (enc q).size)
        else (best, bestSize)).1 = some b →
        (if (enc q).size ≤ t ∧ JSize.ltN bestSize (enc q).size = true
          then ((some (enc q) : Option Blob), JSize.fin (enc q).size)
        else if best = none ∨ JSize.nlt (enc q).size bestSize = true
          then ((some (enc q) : Option Blob), JSize.fin (enc q).size)
        else (best, bestSize)).2 = .fin b.size := by
      intro b
      split_ifs with hu1 hu2
      · intro hb
        simp only [Option.some.injEq] at hb
        simp [hb.symm]
      · intro hb
        simp only [Option.some.injEq] at hb
        simp [hb.symm]
      · exact h2 b
    simp only [fullPdfLoop]
    generalize hbs : (if (enc q).size ≤ t ∧ JSize.ltN bestSize (enc q).size = true
          then ((some (enc q) : Option Blob), JSize.fin (enc q).size)
        else if best = none ∨ JSize.nlt (enc q).size bestSize = true
          then ((some (enc q) : Option Blob), JSize.fin (enc q).size)
        else (best, bestSize)) = bs
    rw [hbs] at hupd hinv1 hinv2
    split_ifs with hband hover hfloor hraise
    · simp only [FullPdfRes.warning, FullPdfRes.attempts]
      constructor
      · intro hfalse
        exact absurd hfalse (by simp)
      · rintro ⟨-, hall⟩
        exact absurd (hall _ (by simp)) (Nat.not_lt.mpr hband.1)
    · simp only [FullPdfRes.warning, FullPdfRes.attempts]
      rw [hupd]
      simp [hover]
    · rw [ih (attempt + 1) (max 20 (q - 10)) bs.1 bs.2 hinv1 hinv2]
      simp only [List.mem_cons]
      rw [hupd]
      constructor
      · rintro ⟨hgt, hall⟩
        simp only [Bool.and_eq_true, decide_eq_true_eq] at hgt
        exact ⟨hgt.1, fun s hs => hs.elim (fun he => he ▸ hover) (hall s)⟩
      · rintro ⟨hgt, hall⟩
        refine ⟨by simp [hgt, hover], fun s hs => hall s (Or.inr hs)⟩
    · rw [ih (attempt + 1) (min 85 (q + 5)) bs.1 bs.2 hinv1 hinv2]
      simp only [List.mem_cons]
      rw [hupd]
      have hnle : ¬ (t < (enc q).size) := hover
      constructor
      · rintro ⟨hgt, -⟩
        simp only [Bool.and_eq_true, decide_eq_true_eq] at hgt
        exact absurd hgt.2 hnle
      · rintro ⟨-, hall⟩
        exact absurd (hall _ (Or.inl rfl)) hnle
    · simp only [FullPdfRes.warning, FullPdfRes.attempts]
      rw [hupd]
      have hnle : ¬ (t < (enc q).size) := hover
      constructor
      · intro hgt
        simp only [Bool.and_eq_true, decide_eq_true_eq] at hgt
        exact absurd hgt.2 hnle
      · rintro ⟨-, hall⟩
        exact absurd (hall _ (by simp)) hnle

/-- C5 (amended): in whole-document mode, `compressFullPDF` accepts the
first rebuild attempt landing in the closed band `[0.9·target, target]`
immediately, with warning false and no further attempt; and its final
warning flag is true exactly when no attempt was ≤ target.  (The attempt it
returns outside the band is the source's own tracker's pick — an
under-target attempt larger than the current best wins, otherwise any
attempt smaller than the current best wins — which `c5_counterexample`
shows need not be the best under-target attempt.) -/
theorem c5_band_and_warning :
    (∀ (enc : ℕ → Blob) (targetKB osize pc : ℕ),
      ((compressFullPDF enc targetKB osize pc).warning = true ↔
        ∀ s ∈ (compressFullPDF enc targetKB osize pc).attempts, targetKB * 1024 < s)) ∧
    (∀ (enc : ℕ → Blob) (t osize pc fuel attempt q : ℕ) (best : Option Blob)
        (bestSize : JSize),
      (enc q).size ≤ t → 9 * t ≤ 10 * (enc q).size →
      fullPdfLoop enc t osize pc (fuel + 1) attempt q best bestSize
        = ⟨some (enc q), osize, .fin (enc q).size, pc, false, [(enc q).size],
            [fullPdfProgress attempt]⟩) := by
  constructor
  · intro enc targetKB osize pc
    have h := fullPdfLoop_warning_iff enc (targetKB * 1024) osize pc 10 0 75 none .inf
      (fun _ => rfl) (fun b hb => by cases hb)
    simpa [compressFullPDF, JSize.gtN] using h
  · intro enc t osize pc fuel attempt q best bestSize hle hband
    simp [fullPdfLoop, hle, hband]

/-- Witness for C5 at a concrete in-band rebuild. -/
theorem c5_band_and_warning_witness :
    ((compressFullPDF (fun _ => ⟨1, 10000⟩) 10 50000 3).warning = true ↔
      ∀ s ∈ (compressFullPDF (fun _ => ⟨1, 10000⟩) 10 50000 3).attempts, 10 * 1024 < s) ∧
    (((10000 : ℕ) ≤ 10240 ∧ 9 * 10240 ≤ 10 * 10000) ∧
      fullPdfLoop (fun _ => ⟨1, 10000⟩) 10240 50000 3 (9 + 1) 0 75 none .inf
        = ⟨some ⟨1, 10000⟩, 50000, .fin 10000, 3, false, [10000], [fullPdfProgress 0]⟩) :=
  ⟨c5_band_and_warning.1 (fun _ => ⟨1, 10000⟩) 10 50000 3,
    ⟨by decide, by decide⟩,
    c5_band_and_warning.2 (fun _ => ⟨1, 10000⟩) 10240 50000 3 9 0 75 none .inf
      (by decide) (by decide)⟩

/-- Rebuild-size function for the C5 counterexample: 5000 bytes at quality
0.75, 8000 at 0.8, 6000 at every other quality. -/
def encC5 : ℕ → Blob := fun q =>
  if q = 75 then ⟨1, 5000⟩ else if q = 80 then ⟨2, 8000⟩ else ⟨3, 6000⟩

/-- C5 counterexample: with a 10 KB target, the attempts are 5000, 8000 and
6000 bytes (all under target, none in the band `[9216, 10240]`).  The best
under-target attempt is 8000, but the tracker's else-branch replaces it
with the smaller 6000-byte attempt, and `compressFullPDF` returns that one
— refuting "returns the best attempt whose total size is ≤ target". -/
theorem c5_counterexample :
    (compressFullPDF encC5 10 50000 3).blob = some ⟨3, 6000⟩ ∧
    (compressFullPDF encC5 10 50000 3).newSize = .fin 6000 ∧
    (compressFullPDF encC5 10 50000 3).attempts = [5000, 8000, 6000] ∧
    (8000 : ℕ) ≤ 10 * 1024 ∧ (6000 : ℕ) < 8000 := by
  exact ⟨by decide, by decide, by decide, by decide, by decide⟩

/-- Helper: with a zero byte target and positive rebuild sizes, every exit
of `compressFullPDF`'s attempt loop reports warning true. -/
theorem fullPdfLoop_zero_target_warning (enc : ℕ → Blob) (osize pc : ℕ)
    (hpos : ∀ q, 0 < (enc q).size) :
    ∀ (fuel attempt q : ℕ) (best : Option Blob) (bestSize : JSize),
      (bestSize = .inf ∨ ∃ m, bestSize = .fin m ∧ 0 < m) →
      (fullPdfLoop enc 0 osize pc fuel attempt q best bestSize).warning = true := by
  intro fuel
  induction fuel with
  | zero =>
    intro attempt q best bestSize hinv
    rcases hinv with h | ⟨m, hm, hpm⟩ <;> simp_all [fullPdfLoop, JSize.gtN]
  | succ n ih =>
    intro attempt q best bestSize hinv
    have hsz := hpos q
    have hnle : ¬ ((enc q).size ≤ 0) := by omega
    have hbsinv : (if (enc q).size ≤ 0 ∧ JSize.ltN bestSize (enc q).size = true
          then ((some (enc q) : Option Blob), JSize.fin (enc q).size)
        else if best = none ∨ JSize.nlt (enc q).size bestSize = true
          then ((some (enc q) : Option Blob), JSize.fin (enc q).size)
        else (best, bestSize)).2 = .inf ∨
        ∃ m, (if (enc q).size ≤ 0 ∧ JSize.ltN bestSize (enc q).size = true
          then ((some (enc q) : Option Blob), JSize.fin (enc q).size)
        else if best = none ∨ JSize.nlt (enc q).size bestSize = true
          then ((some (enc q) : Option Blob), JSize.fin (enc q).size)
        else (best, bestSize)).2 = .fin m ∧ 0 < m := by
      split_ifs
      · exact Or.inr ⟨(enc q).size, rfl, hsz⟩
      · exact Or.inr ⟨(enc q).size, rfl, hsz⟩
      · exact hinv
    simp only [fullPdfLoop]
    generalize hbs : (if (enc q).size ≤ 0 ∧ JSize.ltN bestSize (enc q).size = true
          then ((some (enc q) : Option Blob), JSize.fin (enc q).size)
        else if best = none ∨ JSize.nlt (enc q).size bestSize = true
          then ((some (enc q) : Option Blob), JSize.fin (enc q).size)
        else (best, bestSize)) = bs
    rw [hbs] at hbsinv
    split_ifs with hband hover
    · exact absurd hband.1 hnle
    · rcases hbsinv with h | ⟨m, hm, hpm⟩ <;> simp_all [JSize.gtN]
    · exact ih (attempt + 1) (max 20 (q - 10)) bs.1 bs.2 hbsinv

/-- Helper: with at least one unit of fuel, the attempt loop always
performs its first rebuild, so the attempt list is never empty. -/
theorem fullPdfLoop_attempts_ne_nil (enc : ℕ → Blob) (t osize pc fuel attempt q : ℕ)
    (best : Option Blob) (bestSize : JSize) :
    (fullPdfLoop enc t osize pc (fuel + 1) attempt q best bestSize).attempts ≠ [] := by
  simp only [fullPdfLoop]
  generalize (if (enc q).size ≤ t ∧ JSize.ltN bestSize (enc q).size = true
      then ((some (enc q) : Option Blob), JSize.fin (enc q).size)
    else if best = none ∨ JSize.nlt (enc q).size bestSize = true
      then ((some (enc q) : Option Blob), JSize.fin (enc q).size)
    else (best, bestSize)) = bs
  split_ifs <;> simp

/-- C8 (amended): no public entry point validates the preset — with a
non-positive (zero) target size, `compressFullPDF` is not rejected before
work begins: it performs its rebuild attempts (the attempt list is
non-empty, i.e. whole-document encodes run) and still produces a normal
outcome, flagged `warning = true`, rather than an error. -/
theorem c8_no_validation (enc : ℕ → Blob) (osize pc : ℕ)
    (hpos : ∀ q, 0 < (enc q).size) :
    (compressFullPDF enc 0 osize pc).warning = true ∧
    (compressFullPDF enc 0 osize pc).attempts ≠ [] := by
  constructor
  · have h := fullPdfLoop_zero_target_warning enc osize pc hpos 10 0 75 none .inf (Or.inl rfl)
    simpa [compressFullPDF] using h
  · simp only [compressFullPDF]
    rw [show (10 : ℕ) = 9 + 1 from rfl]
    exact fullPdfLoop_attempts_ne_nil enc (0 * 1024) osize pc 9 0 75 none .inf

/-- Witness for C8 with a constant 100-byte rebuild. -/
theorem c8_no_validation_witness :
    (0 : ℕ) < (100 : ℕ) ∧
    ((compressFullPDF (fun _ => ⟨0, 100⟩) 0 900 1).warning = true ∧
      (compressFullPDF (fun _ => ⟨0, 100⟩) 0 900 1).attempts ≠ []) :=
  ⟨by decide, c8_no_validation (fun _ => ⟨0, 100⟩) 900 1 (fun _ => by simp)⟩

/-- C8 counterexample: called with target size 0 — an invalid preset the
claim says is rejected before any work — `compressFullPDF` runs seven full
document rebuilds (qualities 0.75 down to 0.2) and returns a normal
outcome carrying the 100-byte blob with `warning = true`: work is
performed and an outcome is produced, with no rejection. -/
theorem c8_counterexample :
    (compressFullPDF (fun _ => ⟨0, 100⟩) 0 900 1).attempts
      = [100, 100, 100, 100, 100, 100, 100] ∧
    (compressFullPDF (fun _ => ⟨0, 100⟩) 0 900 1).blob = some ⟨0, 100⟩ ∧
    (compressFullPDF (fun _ => ⟨0, 100⟩) 0 900 1).warning = true := by
  exact ⟨by decide, by decide, by decide⟩

/-- Helper: the attempt-progress formula evaluates to `10 + 8·attempt`. -/
theorem fullPdfProgress_eq (a : ℕ) : fullPdfProgress a = 10 + 8 * (a : ℤ) := by
  unfold fullPdfProgress
  have h : ((a : ℚ) / 10 * 80) = ((8 * a : ℕ) : ℚ) := by push_cast; ring
  rw [h, round_natCast]
  push_cast
  ring

/-- Helper: the trace of the attempt loop is sorted and its entries lie in
`[10 + 8·attempt, 90]`, provided at most 10 attempts remain. -/
theorem fullPdfLoop_trace_bounds (enc : ℕ → Blob) (t osize pc : ℕ) :
    ∀ (fuel attempt q : ℕ) (best : Option Blob) (bestSize : JSize),
      attempt + fuel ≤ 10 →
      List.Chain' (· ≤ ·) (fullPdfLoop enc t osize pc fuel attempt q best bestSize).trace ∧
      ∀ x ∈ (fullPdfLoop enc t osize pc fuel attempt q best bestSize).trace,
        10 + 8 * (attempt : ℤ) ≤ x ∧ x ≤ 90 := by
  intro fuel
  induction fuel with
  | zero =>
    intro attempt q best bestSize _
    simp [fullPdfLoop]
  | succ n ih =>
    intro attempt q best bestSize hle
    have ha9 : attempt ≤ 9 := by omega
    have hsingle : List.Chain' (· ≤ ·) [fullPdfProgress attempt] ∧
        ∀ x ∈ [fullPdfProgress attempt], 10 + 8 * (attempt : ℤ) ≤ x ∧ x ≤ 90 := by
      refine ⟨List.chain'_singleton _, ?_⟩
      intro x hx
      simp only [List.mem_singleton] at hx
      subst hx
      rw [fullPdfProgress_eq]
      constructor
      · omega
      · have : (attempt : ℤ) ≤ 9 := by exact_mod_cast ha9
        omega
    have hcons : ∀ (st2q : ℕ) (b2 : Option Blob) (s2 : JSize),
        List.Chain' (· ≤ ·)
          (fullPdfProgress attempt ::
            (fullPdfLoop enc t osize pc n (attempt + 1) st2q b2 s2).trace) ∧
        ∀ x ∈ fullPdfProgress attempt ::
            (fullPdfLoop enc t osize pc n (attempt + 1) st2q b2 s2).trace,
          10 + 8 * (attempt : ℤ) ≤ x ∧ x ≤ 90 := by
      intro st2q b2 s2
      obtain ⟨ihc, ihb⟩ := ih (attempt + 1) st2q b2 s2 (by omega)
      constructor
      · refine List.chain'_cons'.mpr ⟨?_, ihc⟩
        intro y hy
        have hmem := List.mem_of_mem_head? hy
        have := (ihb y hmem).1
        rw [fullPdfProgress_eq]
        push_cast at this ⊢
        omega
      · intro x hx
        rcases List.mem_cons.mp hx with hx | hx
        · subst hx
          rw [fullPdfProgress_eq]
          have : (attempt : ℤ) ≤ 9 := by exact_mod_cast ha9
          omega
        · have := ihb x hx
          push_cast at this ⊢
          omega
    simp only [fullPdfLoop]
    generalize (if (enc q).size ≤ t ∧ JSize.ltN bestSize (enc q).size = true
        then ((some (enc q) : Option Blob), JSize.fin (enc q).size)
      else if best = none ∨ JSize.nlt (enc q).size bestSize = true
        then ((some (enc q) : Option Blob), JSize.fin (enc q).size)
      else (best, bestSize)) = bs
    split_ifs
    · exact hsingle
    · exact hsingle
    · exact hcons (max 20 (q - 10)) bs.1 bs.2
    · exact hcons (min 85 (q + 5)) bs.1 bs.2
    · exact hsingle

/-- C7 (amended): for both PDF entry points — `compressFullPDF` and
`extractAndProcessPages` — the delivered progress sequence is monotonically
non-decreasing and the value 100 is delivered exactly once, at the end.
(The excluded `processImage` violates both parts: `c7_counterexample`
shows its passthrough path stops at 20 and never delivers 100, and its
quality-search progress restarts near 0 below already-delivered values.) -/
theorem c7_progress :
    (∀ (enc : ℕ → Blob) (targetKB osize pc : ℕ),
      List.Chain' (· ≤ ·) (compressFullPDF enc targetKB osize pc).trace ∧
      (compressFullPDF enc targetKB osize pc).trace.count 100 = 1) ∧
    (∀ (render : ℕ → ℕ × ℕ) (penc : ℕ → ℤ → ℤ → ℕ → Blob) (wrap : Blob → Blob)
        (sq : ℚ → ℚ) (preset : Preset) (osize : ℕ) (pages : List ℕ),
      List.Chain' (· ≤ ·) (extractAndProcessPages render penc wrap sq preset osize pages).2 ∧
      (extractAndProcessPages render penc wrap sq preset osize pages).2.count 100 = 1) := by
  constructor
  · intro enc targetKB osize pc
    obtain ⟨hc, hb⟩ := fullPdfLoop_trace_bounds enc (targetKB * 1024) osize pc 10 0 75
      none .inf (by omega)
    simp only [compressFullPDF]
    constructor
    · refine List.chain'_cons'.mpr ⟨?_, ?_⟩
      · intro y hy
        have hmem := List.mem_of_mem_head? hy
        rcases List.mem_append.mp hmem with hmem | hmem
        · have := (hb y hmem).1
          omega
        · simp only [List.mem_singleton] at hmem
          omega
      · refine List.Chain'.append hc (List.chain'_singleton _) ?_
        intro x hx y hy
        have hxm := List.mem_of_mem_getLast? hx
        have hym := List.mem_of_mem_head? hy
        simp only [List.mem_singleton] at hym
        have := (hb x hxm).2
        omega
    · have hz : (fullPdfLoop enc (targetKB * 1024) osize pc 10 0 75 none .inf).trace.count
          (100 : ℤ) = 0 := by
        refine List.count_eq_zero.mpr ?_
        intro hmem
        have := (hb 100 hmem).2
        omega
      simp [List.count_cons, List.count_append, hz]
  · intro render penc wrap sq preset osize pages
    have hround : ∀ x y : ℚ, x ≤ y → round x ≤ round y := by
      intro x y h
      rw [round_eq, round_eq]
      exact Int.floor_le_floor (by linarith)
    set len := pages.length with hlen
    have hbound : ∀ i < len, (20 : ℤ) ≤ 20 + round ((i : ℚ) * (70 / (len : ℚ))) ∧
        20 + round ((i : ℚ) * (70 / (len : ℚ))) ≤ 90 := by
      intro i hi
      have hlenpos : (0 : ℚ) < (len : ℚ) := by
        have hl : 0 < len := Nat.lt_of_le_of_lt (Nat.zero_le i) hi
        exact_mod_cast hl
      have h70 : (0 : ℚ) ≤ 70 / (len : ℚ) := by positivity
      have hlow : (0 : ℚ) ≤ (i : ℚ) * (70 / (len : ℚ)) := by positivity
      have hhigh : (i : ℚ) * (70 / (len : ℚ)) ≤ 70 := by
        rw [mul_div_assoc']
        rw [div_le_iff₀ hlenpos]
        have : (i : ℚ) ≤ (len : ℚ) := by exact_mod_cast Nat.le_of_lt hi
        nlinarith
      constructor
      · have := hround 0 ((i : ℚ) * (70 / (len : ℚ))) hlow
        simp only [round_zero] at this
        omega
      · have := hround ((i : ℚ) * (70 / (len : ℚ))) 70 hhigh
        have h70r : round (70 : ℚ) = 70 := by norm_num [round_eq]
        omega
    have hmono : ∀ i j : ℕ, i ≤ j →
        (20 : ℤ) + round ((i : ℚ) * (70 / (len : ℚ))) ≤
          20 + round ((j : ℚ) * (70 / (len : ℚ))) := by
      intro i j hij
      have h70 : (0 : ℚ) ≤ 70 / (len : ℚ) := by positivity
      have : ((i : ℚ)) * (70 / (len : ℚ)) ≤ ((j : ℚ)) * (70 / (len : ℚ)) := by
        have : ((i : ℚ)) ≤ (j : ℚ) := by exact_mod_cast hij
        nlinarith
      have := hround _ _ this
      omega
    have hpair : List.Pairwise (· ≤ ·)
        ((List.range len).map fun idx : ℕ => (20 : ℤ) + round ((idx : ℚ) * (70 / (len : ℚ)))) := by
      refine List.Pairwise.map _ ?_ (List.pairwise_lt_range len)
      intro a b hab
      exact hmono a b (Nat.le_of_lt hab)
    have hmem90 : ∀ x ∈ (List.range len).map
        (fun idx : ℕ => (20 : ℤ) + round ((idx : ℚ) * (70 / (len : ℚ)))),
        (20 : ℤ) ≤ x ∧ x ≤ 90 := by
      intro x hx
      obtain ⟨i, hi, rfl⟩ := List.mem_map.mp hx
      exact hbound i (List.mem_range.mp hi)
    simp only [extractAndProcessPages]
    constructor
    · refine List.Pairwise.chain' ?_
      refine List.pairwise_cons.mpr ⟨?_, ?_⟩
      · intro y hy
        rcases List.mem_append.mp hy with hym | hym
        · have := (hmem90 y hym).1
          omega
        · simp only [List.mem_singleton] at hym
          omega
      · refine (List.pairwise_append).mpr ⟨hpair, List.pairwise_singleton _ _, ?_⟩
        intro x hx y hy
        simp only [List.mem_singleton] at hy
        have := (hmem90 x hx).2
        omega
    · have hz : ((List.range len).map
          (fun idx : ℕ => (20 : ℤ) + round ((idx : ℚ) * (70 / (len : ℚ))))).count (100 : ℤ)
          = 0 := by
        refine List.count_eq_zero.mpr ?_
        intro hmem
        have := (hmem90 100 hmem).2
        omega
      simp [List.count_cons, List.count_append, hz]

/-- C7 counterexample: `processImage` on its passthrough path delivers the
progress sequence `[10, 20]` — the value 100 is never delivered, refuting
"the value 100 is delivered exactly once, on completion". -/
theorem c7_counterexample :
    (processImage ⟨⟨1, 100⟩, "image/jpeg", 10, 10⟩ ⟨1, "image/jpeg", 100, 100⟩
        (fun _ _ _ => ⟨0, 0⟩) (fun _ => 0)).trace = [10, 20] ∧
    (processImage ⟨⟨1, 100⟩, "image/jpeg", 10, 10⟩ ⟨1, "image/jpeg", 100, 100⟩
        (fun _ _ _ => ⟨0, 0⟩) (fun _ => 0)).trace.count 100 = 0 := by
  exact ⟨by decide, by decide⟩

end FileCompressor
